import Mathlib

/-!
Shallow embedding of `so::Kalman_filter<N, M>` from `src/sno/kalman_filter.h`.

Machine doubles are modelled by exact rationals (ℚ) and Eigen fixed-size
matrices `Eigen::Matrix<double, r, c>` by `Matrix (Fin r) (Fin c) ℚ`.
Eigen's `Matrix::inverse()` (adjugate divided by the determinant) is shadowed
by `eigenInverse` below; the IEEE division by a zero determinant, which in the
C++ code yields non-finite entries, maps to rational division by zero, which
yields 0.  The C++ member functions (`Predict`, `Update`, the accessors)
mutate the object in place; here each is a function from the old filter
record to the new one.  Field names follow the C++ members
(`m_A`, `m_B`, `m_Q`, `m_x`, `m_P`, `m_last_timestamp`).
-/

open Matrix

/-- State of `so::Kalman_filter<N, M>`: the stored model functions
`m_A : dt ↦ A(dt)` and `m_B : dt ↦ B(dt)`, the constant process noise `m_Q`,
the state estimate `m_x`, the error covariance `m_P`, and
`m_last_timestamp`. -/
structure Kalman_filter (n m : ℕ) where
  m_A : ℚ → Matrix (Fin n) (Fin n) ℚ
  m_B : ℚ → Matrix (Fin n) (Fin m) ℚ
  m_Q : Matrix (Fin n) (Fin n) ℚ
  m_x : Matrix (Fin n) (Fin 1) ℚ
  m_P : Matrix (Fin n) (Fin n) ℚ
  m_last_timestamp : ℚ

namespace Kalman_filter

/-- The constructor `Kalman_filter(A, B, Q, x0, P0, t0)` (kalman_filter.h
lines 45-60): the constant matrices `A` and `B` are wrapped into
constant-returning functions of `dt`, and `Q`, `x0`, `P0`, `t0` are stored
directly. -/
def mk_const {n m : ℕ} (A : Matrix (Fin n) (Fin n) ℚ) (B : Matrix (Fin n) (Fin m) ℚ)
    (Q : Matrix (Fin n) (Fin n) ℚ) (x0 : Matrix (Fin n) (Fin 1) ℚ)
    (P0 : Matrix (Fin n) (Fin n) ℚ) (t0 : ℚ) : Kalman_filter n m :=
  ⟨fun _ => A, fun _ => B, Q, x0, P0, t0⟩

/-- `Predict(u, t)` (kalman_filter.h lines 78-86):
`dt = t - m_last_timestamp`; `m_last_timestamp = t`; `A = m_A(dt)`;
`B = m_B(dt)`; `m_x = A * m_x + B * u`; `m_P = A * m_P * Aᵀ + m_Q`.
Total: the C++ body performs no check and cannot fail. -/
def Predict {n m : ℕ} (kf : Kalman_filter n m) (u : Matrix (Fin m) (Fin 1) ℚ) (t : ℚ) :
    Kalman_filter n m :=
  let dt := t - kf.m_last_timestamp
  let A := kf.m_A dt
  let B := kf.m_B dt
  { kf with
    m_x := A * kf.m_x + B * u
    m_P := A * kf.m_P * A.transpose + kf.m_Q
    m_last_timestamp := t }

/-- The overload `Predict(t)` (kalman_filter.h lines 66-70):
`Predict(MatrixM1::Zero(), t)`. -/
def Predict0 {n m : ℕ} (kf : Kalman_filter n m) (t : ℚ) : Kalman_filter n m :=
  Predict kf 0 t

/-- Exact-arithmetic shadow of Eigen's fixed-size `Matrix::inverse()`:
the adjugate scaled by the reciprocal of the determinant.  For a singular
matrix the C++ computation divides by zero and produces non-finite entries;
in ℚ the reciprocal of 0 is 0, so `eigenInverse` of a singular matrix is the
zero matrix.  No error is signalled in either case. -/
def eigenInverse {u : ℕ} (S : Matrix (Fin u) (Fin u) ℚ) : Matrix (Fin u) (Fin u) ℚ :=
  (S.det)⁻¹ • S.adjugate

/-- The generic `Update<U>(z, H, R)` (kalman_filter.h lines 119-145):
innovation `y = z - H * m_x`; innovation covariance
`S = H * m_P * Hᵀ + R`; gain `K = m_P * Hᵀ * S.inverse()`;
`m_x = m_x + K * y`; `m_P = (Identity - K * H) * m_P`.
`m_last_timestamp` is not touched (the source leaves a TODO there), and the
body contains no singularity check and no error path. -/
def Update {n m U : ℕ} (kf : Kalman_filter n m) (z : Matrix (Fin U) (Fin 1) ℚ)
    (H : Matrix (Fin U) (Fin n) ℚ) (R : Matrix (Fin U) (Fin U) ℚ) : Kalman_filter n m :=
  let y := z - H * kf.m_x
  let S := H * kf.m_P * H.transpose + R
  let K := kf.m_P * H.transpose * eigenInverse S
  { kf with
    m_x := kf.m_x + K * y
    m_P := (1 - K * H) * kf.m_P }

/-- The scalar convenience overload `Update(z, H, R)` (kalman_filter.h lines
99-106): wraps `z` and `R` into 1×1 matrices and calls the generic
`Update`. -/
def Update1 {n m : ℕ} (kf : Kalman_filter n m) (z : ℚ) (H : Matrix (Fin 1) (Fin n) ℚ)
    (R : ℚ) : Kalman_filter n m :=
  Update kf (Matrix.of fun _ _ => z) H (Matrix.of fun _ _ => R)

/-- `Get_state_estimate()` (kalman_filter.h line 151): returns `m_x`. -/
def Get_state_estimate {n m : ℕ} (kf : Kalman_filter n m) : Matrix (Fin n) (Fin 1) ℚ :=
  kf.m_x

/-- `Get_error_covariance()` (kalman_filter.h line 157): returns `m_P`. -/
def Get_error_covariance {n m : ℕ} (kf : Kalman_filter n m) : Matrix (Fin n) (Fin n) ℚ :=
  kf.m_P

/-- `Set_state_estimate(x)` (kalman_filter.h lines 159-163): `m_x = x`.
The C++ declaration takes `const MatrixNN&` (an N×N matrix), yet assigns it
to the N×1 member `m_x`; that assignment only type-checks when N = 1 (for
N ≥ 2 Eigen rejects the instantiation with a static size assertion), so the
embedding is stated at N = 1, the only dimension at which the member is
callable. -/
def Set_state_estimate {m : ℕ} (kf : Kalman_filter 1 m) (x : Matrix (Fin 1) (Fin 1) ℚ) :
    Kalman_filter 1 m :=
  { kf with m_x := x }

/-- `Set_error_covariance(p)` (kalman_filter.h lines 165-168): `m_P = p`. -/
def Set_error_covariance {n m : ℕ} (kf : Kalman_filter n m) (p : Matrix (Fin n) (Fin n) ℚ) :
    Kalman_filter n m :=
  { kf with m_P := p }

end Kalman_filter

open Kalman_filter

/-- The concrete N=1 scalar filter of the spec's worked scenario:
`Kalman_filter<1>(A=1, B=0, Q=0.01, x0=0, P0=1, t0=0)`. -/
def scalarFilter : Kalman_filter 1 1 :=
  mk_const 1 0 (Matrix.of fun _ _ => (1 / 100 : ℚ)) 0 1 0

/-- One externally issued call on a filter: either `Predict(u, t)` or a
generic `Update<U>(z, H, R)` (the observation dimension `U` may differ from
call to call, as in the template member). -/
inductive Op (n m : ℕ) where
  | predict (u : Matrix (Fin m) (Fin 1) ℚ) (t : ℚ)
  | update (U : ℕ) (z : Matrix (Fin U) (Fin 1) ℚ) (H : Matrix (Fin U) (Fin n) ℚ)
      (R : Matrix (Fin U) (Fin U) ℚ)

/-- Execute one call on the filter. -/
def runOp {n m : ℕ} (kf : Kalman_filter n m) : Op n m → Kalman_filter n m
  | Op.predict u t => Predict kf u t
  | Op.update _ z H R => Update kf z H R

/-- The observation noise covariance supplied to an `update` call is
symmetric (no constraint on a `predict` call). -/
def Op.RSymm {n m : ℕ} : Op n m → Prop
  | Op.predict _ _ => True
  | Op.update _ _ _ R => R.IsSymm

/-- The adjugate-over-determinant inverse computed by the C++ update equals
Mathlib's matrix inverse (which uses the same convention, with `Ring.inverse`
of a non-unit determinant equal to 0). -/
theorem eigenInverse_eq_inv {u : ℕ} (S : Matrix (Fin u) (Fin u) ℚ) :
    eigenInverse S = S⁻¹ := by
  rw [eigenInverse, Matrix.inv_def, Ring.inverse_eq_inv]

/-- C2: for every filter state and every observation with invertible
`S = H·P·Hᵀ + R`, `Update` computes the innovation `y = z − H·x`, the gain
`K = P·Hᵀ·S⁻¹` (with the true matrix inverse), and sets the new state
estimate to `x + K·y` and the new error covariance to `(I − K·H)·P`, leaving
the remaining fields unchanged. -/
theorem update_applies_kalman_formulas {n m U : ℕ} (kf : Kalman_filter n m)
    (z : Matrix (Fin U) (Fin 1) ℚ) (H : Matrix (Fin U) (Fin n) ℚ)
    (R : Matrix (Fin U) (Fin U) ℚ)
    (hS : IsUnit (H * kf.m_P * H.transpose + R).det) :
    (Update kf z H R).m_x =
      kf.m_x + kf.m_P * H.transpose * (H * kf.m_P * H.transpose + R)⁻¹ * (z - H * kf.m_x) ∧
    (Update kf z H R).m_P =
      (1 - kf.m_P * H.transpose * (H * kf.m_P * H.transpose + R)⁻¹ * H) * kf.m_P ∧
    (Update kf z H R).m_Q = kf.m_Q ∧
    (Update kf z H R).m_last_timestamp = kf.m_last_timestamp := by
  refine ⟨?_, ?_, rfl, rfl⟩ <;> simp [Update, eigenInverse_eq_inv]

/-- Witness for C2 at the concrete scalar instance `(z, H, R) = (1, 1, 1)`
on `scalarFilter`, where `det S = 2` is a unit. -/
theorem update_applies_kalman_formulas_witness :
    IsUnit ((1 : Matrix (Fin 1) (Fin 1) ℚ) * scalarFilter.m_P *
        (1 : Matrix (Fin 1) (Fin 1) ℚ).transpose + Matrix.of fun _ _ => (1 : ℚ)).det ∧
    ((Update scalarFilter (Matrix.of fun _ _ => (1 : ℚ)) (1 : Matrix (Fin 1) (Fin 1) ℚ) (Matrix.of fun _ _ => (1 : ℚ))).m_x =
      scalarFilter.m_x + scalarFilter.m_P * (1 : Matrix (Fin 1) (Fin 1) ℚ).transpose *
        ((1 : Matrix (Fin 1) (Fin 1) ℚ) * scalarFilter.m_P *
          (1 : Matrix (Fin 1) (Fin 1) ℚ).transpose + Matrix.of fun _ _ => (1 : ℚ))⁻¹ *
        ((Matrix.of fun _ _ => (1 : ℚ)) - (1 : Matrix (Fin 1) (Fin 1) ℚ) * scalarFilter.m_x) ∧
    (Update scalarFilter (Matrix.of fun _ _ => (1 : ℚ)) (1 : Matrix (Fin 1) (Fin 1) ℚ) (Matrix.of fun _ _ => (1 : ℚ))).m_P =
      (1 - scalarFilter.m_P * (1 : Matrix (Fin 1) (Fin 1) ℚ).transpose *
        ((1 : Matrix (Fin 1) (Fin 1) ℚ) * scalarFilter.m_P *
          (1 : Matrix (Fin 1) (Fin 1) ℚ).transpose + Matrix.of fun _ _ => (1 : ℚ))⁻¹ * 1) *
        scalarFilter.m_P ∧
    (Update scalarFilter (Matrix.of fun _ _ => (1 : ℚ)) (1 : Matrix (Fin 1) (Fin 1) ℚ) (Matrix.of fun _ _ => (1 : ℚ))).m_Q =
      scalarFilter.m_Q ∧
    (Update scalarFilter (Matrix.of fun _ _ => (1 : ℚ)) (1 : Matrix (Fin 1) (Fin 1) ℚ) (Matrix.of fun _ _ => (1 : ℚ))).m_last_timestamp =
      scalarFilter.m_last_timestamp) := by
  have h : IsUnit ((1 : Matrix (Fin 1) (Fin 1) ℚ) * scalarFilter.m_P *
      (1 : Matrix (Fin 1) (Fin 1) ℚ).transpose + Matrix.of fun _ _ => (1 : ℚ)).det := by
    rw [Matrix.det_fin_one]
    simp [scalarFilter, mk_const, Matrix.mul_apply, Fin.sum_univ_one]
  exact ⟨h, update_applies_kalman_formulas scalarFilter (Matrix.of fun _ _ => (1 : ℚ)) 1
    (Matrix.of fun _ _ => (1 : ℚ)) h⟩

/-- C3: `Predict(u, t)` sets `Δt = t − last_timestamp`, replaces the state
with `A(Δt)·x + B(Δt)·u` and the covariance with `A(Δt)·P·A(Δt)ᵀ + Q`, and
sets `last_timestamp` to `t`; it is a total function (it never fails), with
no restriction on `t` — in particular `t` earlier than `last_timestamp`
(negative Δt) is accepted. -/
theorem predict_applies_transition {n m : ℕ} (kf : Kalman_filter n m)
    (u : Matrix (Fin m) (Fin 1) ℚ) (t : ℚ) :
    (Predict kf u t).m_x =
      kf.m_A (t - kf.m_last_timestamp) * kf.m_x + kf.m_B (t - kf.m_last_timestamp) * u ∧
    (Predict kf u t).m_P =
      kf.m_A (t - kf.m_last_timestamp) * kf.m_P * (kf.m_A (t - kf.m_last_timestamp)).transpose +
        kf.m_Q ∧
    (Predict kf u t).m_last_timestamp = t ∧
    (Predict kf u t).m_A = kf.m_A ∧
    (Predict kf u t).m_B = kf.m_B ∧
    (Predict kf u t).m_Q = kf.m_Q :=
  ⟨rfl, rfl, rfl, rfl, rfl, rfl⟩

/-- C8: `last_timestamp` is advanced only by `Predict`: the generic `Update`
leaves `m_last_timestamp` unchanged, and so do `Set_state_estimate` (stated
at N = 1, the only dimension at which the source member type-checks) and
`Set_error_covariance`. -/
theorem last_timestamp_frame {n m U m' : ℕ} (kf : Kalman_filter n m)
    (z : Matrix (Fin U) (Fin 1) ℚ) (H : Matrix (Fin U) (Fin n) ℚ)
    (R : Matrix (Fin U) (Fin U) ℚ) (p : Matrix (Fin n) (Fin n) ℚ)
    (kf1 : Kalman_filter 1 m') (x1 : Matrix (Fin 1) (Fin 1) ℚ) :
    (Update kf z H R).m_last_timestamp = kf.m_last_timestamp ∧
    (Set_error_covariance kf p).m_last_timestamp = kf.m_last_timestamp ∧
    (Set_state_estimate kf1 x1).m_last_timestamp = kf1.m_last_timestamp :=
  ⟨rfl, rfl, rfl⟩

/-- C9: the scalar convenience overload `Update(z, H, R)` produces exactly
the same resulting filter state — estimate, covariance and timestamp — as
the generic `Update` called with `z` and `R` wrapped as 1×1 matrices. -/
theorem update_scalar_refines_generic {n m : ℕ} (kf : Kalman_filter n m) (z : ℚ)
    (H : Matrix (Fin 1) (Fin n) ℚ) (R : ℚ) :
    (Update1 kf z H R).m_x =
      (Update kf (Matrix.of fun _ _ => z) H (Matrix.of fun _ _ => R)).m_x ∧
    (Update1 kf z H R).m_P =
      (Update kf (Matrix.of fun _ _ => z) H (Matrix.of fun _ _ => R)).m_P ∧
    (Update1 kf z H R).m_last_timestamp =
      (Update kf (Matrix.of fun _ _ => z) H (Matrix.of fun _ _ => R)).m_last_timestamp :=
  ⟨rfl, rfl, rfl⟩

/-- C5: the spec's worked N=1 scenario, in exact arithmetic.  On
`scalarFilter` (A=1, B=0, Q=1/100, x0=0, P0=1, t0=0), `Predict(t=1)` gives
x = 0 and P = 101/100 (= 1.01); the subsequent `Update(z=1, H=1, R=1)` uses
the gain K = 101/201 (≈ 0.5025) and gives x = 101/201 (≈ 0.5025) and
P = 101/201 (≈ 0.5025). -/
theorem scalar_scenario_exact :
    (Predict0 scalarFilter 1).m_x = 0 ∧
    (Predict0 scalarFilter 1).m_P = (Matrix.of fun _ _ => (101 / 100 : ℚ)) ∧
    (Predict0 scalarFilter 1).m_P * (1 : Matrix (Fin 1) (Fin 1) ℚ).transpose *
        eigenInverse ((1 : Matrix (Fin 1) (Fin 1) ℚ) * (Predict0 scalarFilter 1).m_P *
          (1 : Matrix (Fin 1) (Fin 1) ℚ).transpose + Matrix.of fun _ _ => (1 : ℚ)) =
      (Matrix.of fun _ _ => (101 / 201 : ℚ)) ∧
    (Update1 (Predict0 scalarFilter 1) 1 1 1).m_x = (Matrix.of fun _ _ => (101 / 201 : ℚ)) ∧
    (Update1 (Predict0 scalarFilter 1) 1 1 1).m_P = (Matrix.of fun _ _ => (101 / 201 : ℚ)) := by
  refine ⟨?_, ?_, ?_, ?_, ?_⟩ <;>
    · ext i j
      fin_cases i
      fin_cases j
      simp [Update1, Update, Predict0, Predict, scalarFilter, mk_const, eigenInverse,
        Matrix.mul_apply, Fin.sum_univ_one, Matrix.det_fin_one, Matrix.adjugate_fin_one]
      try norm_num

/-- C4 counterexample: on `scalarFilter` the model functions satisfy
A(0) = I and B(0) = 0, yet calling `Predict` twice at the same timestamp
does not leave P unchanged after the second call: the constant process noise
Q = 1/100 is added again (P goes from 101/100 to 102/100). -/
theorem predict_twice_changes_P :
    scalarFilter.m_A 0 = 1 ∧ scalarFilter.m_B 0 = 0 ∧
    (Predict (Predict scalarFilter 0 1) 0 1).m_P ≠ (Predict scalarFilter 0 1).m_P := by
  refine ⟨rfl, rfl, fun h => ?_⟩
  have h00 := congrFun (congrFun h 0) 0
  simp [Predict, scalarFilter, mk_const, Matrix.mul_apply, Fin.sum_univ_one] at h00

/-- C4 (amended): given A(0) = I and B(0) = 0, calling `Predict` and then
`Predict` again at the same timestamp leaves x unchanged after the second
call, while P is increased by exactly Q (the constant process noise is added
on every `Predict`, so Δt = 0 is an identity transition for the state but
not for the covariance; P is unchanged only when Q = 0). -/
theorem predict_twice_adds_Q {n m : ℕ} (kf : Kalman_filter n m)
    (u : Matrix (Fin m) (Fin 1) ℚ) (t : ℚ)
    (hA : kf.m_A 0 = 1) (hB : kf.m_B 0 = 0) :
    (Predict (Predict kf u t) u t).m_x = (Predict kf u t).m_x ∧
    (Predict (Predict kf u t) u t).m_P = (Predict kf u t).m_P + kf.m_Q := by
  constructor
  · show kf.m_A (t - t) * (Predict kf u t).m_x + kf.m_B (t - t) * u = (Predict kf u t).m_x
    rw [sub_self, hA, hB, Matrix.one_mul, Matrix.zero_mul, add_zero]
  · show kf.m_A (t - t) * (Predict kf u t).m_P * (kf.m_A (t - t)).transpose + kf.m_Q =
      (Predict kf u t).m_P + kf.m_Q
    rw [sub_self, hA, Matrix.transpose_one, Matrix.one_mul, Matrix.mul_one]

/-- Witness for the amended C4 at `scalarFilter` with u = 0, t = 2. -/
theorem predict_twice_adds_Q_witness :
    scalarFilter.m_A 0 = 1 ∧ scalarFilter.m_B 0 = 0 ∧
    ((Predict (Predict scalarFilter 0 2) 0 2).m_x = (Predict scalarFilter 0 2).m_x ∧
    (Predict (Predict scalarFilter 0 2) 0 2).m_P =
      (Predict scalarFilter 0 2).m_P + scalarFilter.m_Q) :=
  ⟨rfl, rfl, predict_twice_adds_Q scalarFilter 0 2 rfl rfl⟩

/-- C6: at N = 1 — the only dimension at which the source's
`Set_state_estimate` type-checks, since its parameter is declared `MatrixNN`
rather than the `MatrixN1` its body assigns to `m_x` — the round-trip
`Set_state_estimate(x1)` then `Get_state_estimate()` returns exactly `x1`,
with no hidden transformation. -/
theorem set_get_state_roundtrip {m : ℕ} (kf : Kalman_filter 1 m)
    (x1 : Matrix (Fin 1) (Fin 1) ℚ) :
    Get_state_estimate (Set_state_estimate kf x1) = x1 :=
  rfl

/-- C1 evaluation: at the concrete input z = 1, H = 0, R = 0 on
`scalarFilter`, the innovation covariance S = H·P·Hᵀ + R has determinant 0
(it is singular), yet `Update` completes normally — it is a total function
with no error path (no singularity check exists in the source, and the
repository defines no NumericalError).  In the exact-arithmetic shadow the
division by det S = 0 yields the zero gain, so x, P and the timestamp come
back unchanged; in the C++ code the same division produces non-finite values
that are stored into x and P. -/
theorem singular_update_completes :
    ((0 : Matrix (Fin 1) (Fin 1) ℚ) * scalarFilter.m_P *
        (0 : Matrix (Fin 1) (Fin 1) ℚ).transpose + Matrix.of fun _ _ => (0 : ℚ)).det = 0 ∧
    (Update1 scalarFilter 1 0 0).m_x = scalarFilter.m_x ∧
    (Update1 scalarFilter 1 0 0).m_P = scalarFilter.m_P ∧
    (Update1 scalarFilter 1 0 0).m_last_timestamp = scalarFilter.m_last_timestamp := by
  refine ⟨?_, ?_, ?_, rfl⟩
  · rw [Matrix.det_fin_one]
    simp
  · show scalarFilter.m_x + _ * _ = scalarFilter.m_x
    simp [eigenInverse]
  · show (1 - scalarFilter.m_P * (0 : Matrix (Fin 1) (Fin 1) ℚ).transpose * _ * _) *
      scalarFilter.m_P = scalarFilter.m_P
    simp [eigenInverse]

/-- C10: if the observation exactly matches the predicted observation,
z = H·x, then `Update` with invertible S leaves the state estimate
unchanged (the zero innovation contributes no correction), while the error
covariance is still set to (I − K·H)·P with K = P·Hᵀ·S⁻¹. -/
theorem zero_innovation_keeps_estimate {n m U : ℕ} (kf : Kalman_filter n m)
    (z : Matrix (Fin U) (Fin 1) ℚ) (H : Matrix (Fin U) (Fin n) ℚ)
    (R : Matrix (Fin U) (Fin U) ℚ)
    (hS : IsUnit (H * kf.m_P * H.transpose + R).det)
    (hz : z = H * kf.m_x) :
    (Update kf z H R).m_x = kf.m_x ∧
    (Update kf z H R).m_P =
      (1 - kf.m_P * H.transpose * (H * kf.m_P * H.transpose + R)⁻¹ * H) * kf.m_P := by
  constructor
  · show kf.m_x + _ * (z - H * kf.m_x) = kf.m_x
    rw [hz, sub_self, Matrix.mul_zero, add_zero]
  · show (1 - kf.m_P * H.transpose * eigenInverse (H * kf.m_P * H.transpose + R) * H) *
      kf.m_P = _
    rw [eigenInverse_eq_inv]

/-- Witness for C10 on `scalarFilter` with H = 1, R = 1 and the matching
observation z = H·x, where det S = 2 is a unit. -/
theorem zero_innovation_keeps_estimate_witness :
    IsUnit ((1 : Matrix (Fin 1) (Fin 1) ℚ) * scalarFilter.m_P *
        (1 : Matrix (Fin 1) (Fin 1) ℚ).transpose + (1 : Matrix (Fin 1) (Fin 1) ℚ)).det ∧
    ((1 : Matrix (Fin 1) (Fin 1) ℚ) * scalarFilter.m_x =
      (1 : Matrix (Fin 1) (Fin 1) ℚ) * scalarFilter.m_x) ∧
    ((Update scalarFilter ((1 : Matrix (Fin 1) (Fin 1) ℚ) * scalarFilter.m_x)
        (1 : Matrix (Fin 1) (Fin 1) ℚ) (1 : Matrix (Fin 1) (Fin 1) ℚ)).m_x =
      scalarFilter.m_x ∧
    (Update scalarFilter ((1 : Matrix (Fin 1) (Fin 1) ℚ) * scalarFilter.m_x)
        (1 : Matrix (Fin 1) (Fin 1) ℚ) (1 : Matrix (Fin 1) (Fin 1) ℚ)).m_P =
      (1 - scalarFilter.m_P * (1 : Matrix (Fin 1) (Fin 1) ℚ).transpose *
        ((1 : Matrix (Fin 1) (Fin 1) ℚ) * scalarFilter.m_P *
          (1 : Matrix (Fin 1) (Fin 1) ℚ).transpose + (1 : Matrix (Fin 1) (Fin 1) ℚ))⁻¹ *
        (1 : Matrix (Fin 1) (Fin 1) ℚ)) * scalarFilter.m_P) := by
  have h : IsUnit ((1 : Matrix (Fin 1) (Fin 1) ℚ) * scalarFilter.m_P *
      (1 : Matrix (Fin 1) (Fin 1) ℚ).transpose + (1 : Matrix (Fin 1) (Fin 1) ℚ)).det := by
    rw [Matrix.det_fin_one]
    simp [scalarFilter, mk_const, Matrix.mul_apply, Fin.sum_univ_one]
  exact ⟨h, rfl, zero_innovation_keeps_estimate scalarFilter
    ((1 : Matrix (Fin 1) (Fin 1) ℚ) * scalarFilter.m_x) (1 : Matrix (Fin 1) (Fin 1) ℚ)
    (1 : Matrix (Fin 1) (Fin 1) ℚ) h rfl⟩

/-- Symmetry of the covariance is preserved by `Predict`: for any A(Δt),
`A·P·Aᵀ + Q` is symmetric when P and Q are. -/
theorem predict_preserves_P_symm {n m : ℕ} (kf : Kalman_filter n m)
    (u : Matrix (Fin m) (Fin 1) ℚ) (t : ℚ)
    (hP : kf.m_P.IsSymm) (hQ : kf.m_Q.IsSymm) : (Predict kf u t).m_P.IsSymm := by
  show (kf.m_A (t - kf.m_last_timestamp) * kf.m_P *
      (kf.m_A (t - kf.m_last_timestamp)).transpose + kf.m_Q).IsSymm
  refine Matrix.IsSymm.add ?_ hQ
  show (kf.m_A (t - kf.m_last_timestamp) * kf.m_P *
      (kf.m_A (t - kf.m_last_timestamp)).transpose).transpose = _
  rw [Matrix.transpose_mul, Matrix.transpose_mul, Matrix.transpose_transpose, hP.eq,
    Matrix.mul_assoc]

/-- The innovation covariance `S = H·P·Hᵀ + R` is symmetric when P and R
are. -/
theorem innovation_cov_symm {n U : ℕ} (P : Matrix (Fin n) (Fin n) ℚ)
    (H : Matrix (Fin U) (Fin n) ℚ) (R : Matrix (Fin U) (Fin U) ℚ)
    (hP : P.IsSymm) (hR : R.IsSymm) : (H * P * H.transpose + R).IsSymm := by
  refine Matrix.IsSymm.add ?_ hR
  show (H * P * H.transpose).transpose = _
  rw [Matrix.transpose_mul, Matrix.transpose_mul, Matrix.transpose_transpose, hP.eq,
    Matrix.mul_assoc]

/-- The adjugate-over-determinant inverse of a symmetric matrix is
symmetric. -/
theorem eigenInverse_symm {u : ℕ} (S : Matrix (Fin u) (Fin u) ℚ) (hS : S.IsSymm) :
    (eigenInverse S).IsSymm := by
  show (eigenInverse S).transpose = eigenInverse S
  rw [eigenInverse, Matrix.transpose_smul, Matrix.adjugate_transpose, hS.eq]

/-- Symmetry of the covariance is preserved by `Update`:
`(I − K·H)·P = P − P·Hᵀ·S⁻¹·H·P` is symmetric when P and R are. -/
theorem update_preserves_P_symm {n m U : ℕ} (kf : Kalman_filter n m)
    (z : Matrix (Fin U) (Fin 1) ℚ) (H : Matrix (Fin U) (Fin n) ℚ)
    (R : Matrix (Fin U) (Fin U) ℚ)
    (hP : kf.m_P.IsSymm) (hR : R.IsSymm) : (Update kf z H R).m_P.IsSymm := by
  have hS : (H * kf.m_P * H.transpose + R).IsSymm := innovation_cov_symm kf.m_P H R hP hR
  have hI : (eigenInverse (H * kf.m_P * H.transpose + R)).IsSymm := eigenInverse_symm _ hS
  have key : ((1 - kf.m_P * H.transpose * eigenInverse (H * kf.m_P * H.transpose + R) * H) *
      kf.m_P).transpose =
      (1 - kf.m_P * H.transpose * eigenInverse (H * kf.m_P * H.transpose + R) * H) *
      kf.m_P := by
    rw [Matrix.sub_mul, Matrix.one_mul, Matrix.transpose_sub]
    rw [Matrix.transpose_mul, Matrix.transpose_mul, Matrix.transpose_mul, Matrix.transpose_mul,
      Matrix.transpose_transpose, hP.eq, hI.eq]
    simp only [Matrix.mul_assoc]
  exact key

/-- Executing one call does not change the stored process noise. -/
theorem runOp_m_Q {n m : ℕ} (kf : Kalman_filter n m) (op : Op n m) :
    (runOp kf op).m_Q = kf.m_Q := by
  cases op <;> rfl

/-- Executing one call with symmetric observation noise preserves symmetry
of the covariance. -/
theorem runOp_preserves_P_symm {n m : ℕ} (kf : Kalman_filter n m) (op : Op n m)
    (hP : kf.m_P.IsSymm) (hQ : kf.m_Q.IsSymm) (hR : op.RSymm) :
    (runOp kf op).m_P.IsSymm := by
  cases op with
  | predict u t => exact predict_preserves_P_symm kf u t hP hQ
  | update U z H R => exact update_preserves_P_symm kf z H R hP hR

/-- C7: the error covariance stays symmetric after every operation: for
every initial filter with symmetric P and symmetric Q, and every finite
sequence of `Predict`/`Update` calls whose observation noise matrices are
symmetric, the covariance after executing the whole sequence is symmetric
(in the exact-arithmetic model; invertibility of S is not even needed). -/
theorem covariance_symmetric_after_ops {n m : ℕ} (kf : Kalman_filter n m)
    (ops : List (Op n m)) (hP : kf.m_P.IsSymm) (hQ : kf.m_Q.IsSymm)
    (hR : ∀ op ∈ ops, op.RSymm) : (ops.foldl runOp kf).m_P.IsSymm := by
  induction ops generalizing kf with
  | nil => exact hP
  | cons op rest ih =>
    simp only [List.foldl_cons]
    refine ih (runOp kf op) ?_ ?_ ?_
    · exact runOp_preserves_P_symm kf op hP hQ (hR op (List.mem_cons_self op rest))
    · rw [runOp_m_Q]
      exact hQ
    · intro o ho
      exact hR o (List.mem_cons_of_mem op ho)

/-- A concrete sequence of calls for the C7 witness: one `Predict` and one
scalar-dimension `Update` with symmetric (1×1) observation noise. -/
def c7ops : List (Op 1 1) :=
  [Op.predict 0 1,
   Op.update 1 (Matrix.of fun _ _ => 1) (Matrix.of fun _ _ => 1) (Matrix.of fun _ _ => 1)]

/-- Witness for C7 on `scalarFilter` with the sequence `c7ops`. -/
theorem covariance_symmetric_after_ops_witness :
    scalarFilter.m_P.IsSymm ∧ scalarFilter.m_Q.IsSymm ∧ (∀ op ∈ c7ops, Op.RSymm op) ∧
    (c7ops.foldl runOp scalarFilter).m_P.IsSymm := by
  have hP : scalarFilter.m_P.IsSymm := Matrix.isSymm_one
  have hQ : scalarFilter.m_Q.IsSymm := rfl
  have hR : ∀ op ∈ c7ops, Op.RSymm op := by
    intro op hop
    rcases List.mem_cons.mp hop with h | h
    · rw [h]
      trivial
    · rw [List.mem_singleton.mp h]
      show (Matrix.of fun _ _ => (1 : ℚ)).IsSymm
      rfl
  exact ⟨hP, hQ, hR, covariance_symmetric_after_ops scalarFilter c7ops hP hQ hR⟩
